import Mathlib

/-!
Verification of `crates/html-to-markdown-rb/include/strings.h`, a
portability shim: on Windows-family targets it aliases the POSIX
case-insensitive string comparisons `strcasecmp` / `strncasecmp` to the
native primitives `_stricmp` / `_strnicmp`; elsewhere it changes nothing.

Two layers are embedded:

1. The preprocessor effect of including the header: `MacroEnv` records the
   state of the macros the header reads or writes, and `processHeader`
   is a line-by-line translation of the header's directives, with
   `#define` of an already-defined macro modelled as an error.

2. The runtime meaning of the comparison functions.  The primitives
   (`_stricmp`, `_strnicmp`, and POSIX `strcasecmp` / `strncasecmp`)
   are not part of this repository, so they are modelled from the spec:
   "return an ordering indicator (negative, zero, or positive) reflecting
   case-insensitive lexicographic comparison".  A null-terminated string
   is a `List Nat` of its byte values (the list end is the terminator, so
   content bytes are nonzero in a well-formed string).
-/

namespace HtmlToMarkdownRb

/-- State of the macros that `strings.h` reads or writes.  `guard` is the
include guard `HTML_TO_MARKDOWN_RB_STRINGS_H` (the body of the macro when
defined), `win32` tells whether `_WIN32` is defined, and the two `Def`
fields hold the current macro bodies (if any) of the names `strcasecmp`
and `strncasecmp`. -/
structure MacroEnv where
  guard : Option String
  win32 : Bool
  strcasecmpDef : Option String
  strncasecmpDef : Option String
deriving DecidableEq, Repr

/-- `#define name body`: an error if the macro is already defined (a
redefinition), otherwise the macro becomes defined with that body. -/
def ppDefine (cur : Option String) (body : String) : Except String (Option String) :=
  match cur with
  | some _ => Except.error "macro redefinition"
  | none => Except.ok (some body)

/-- The pattern `#ifndef name` / `#define name body` / `#endif` used at
lines 8-13 of the header: if the macro is already defined the block is
skipped, otherwise the `#define` runs. -/
def defineIfUndef (cur : Option String) (body : String) : Except String (Option String) :=
  match cur with
  | some d => Except.ok (some d)
  | none => ppDefine none body

/-- The preprocessor effect of including `strings.h` once, translated
directive by directive.  `#include <string.h>` and `#include <ctype.h>`
declare library functions and touch none of the tracked macros. -/
def processHeader (env : MacroEnv) : Except String MacroEnv :=
  match env.guard with
  | some _ => Except.ok env
  | none =>
    match ppDefine none "" with
    | Except.error e => Except.error e
    | Except.ok g =>
      if env.win32 then
        match defineIfUndef env.strcasecmpDef "_stricmp" with
        | Except.error e => Except.error e
        | Except.ok d1 =>
          match defineIfUndef env.strncasecmpDef "_strnicmp" with
          | Except.error e => Except.error e
          | Except.ok d2 =>
            Except.ok { env with guard := g, strcasecmpDef := d1, strncasecmpDef := d2 }
      else
        Except.ok { env with guard := g }

/-- Whether a preprocessor run succeeded. -/
def ppOk (r : Except String MacroEnv) : Bool :=
  match r with
  | Except.ok _ => true
  | Except.error _ => false

/-- Modelled from the spec: ASCII lower-casing of one byte, the character
folding performed by the case-insensitive comparisons the header's names
must match. -/
def asciiLower (c : Nat) : Nat := if 65 ≤ c ∧ c ≤ 90 then c + 32 else c

/-- Modelled from the spec: the ordering indicator returned at the first
position where the two (already lower-cased) byte sequences differ, with
the list end playing the role of the null terminator (byte value 0). -/
def lexDiff : List Nat → List Nat → Int
  | [], [] => 0
  | [], b :: _ => -(b : Int)
  | a :: _, [] => (a : Int)
  | a :: as, b :: bs => if a = b then lexDiff as bs else (a : Int) - (b : Int)

/-- Modelled from the spec: case-insensitive comparison of two
null-terminated byte sequences, "identical in meaning to the POSIX-style
case-insensitive comparison functions". -/
def caseCmp : List Nat → List Nat → Int
  | [], [] => 0
  | [], c2 :: _ => -((asciiLower c2 : Nat) : Int)
  | c1 :: _, [] => ((asciiLower c1 : Nat) : Int)
  | c1 :: s1, c2 :: s2 =>
    if asciiLower c1 = asciiLower c2 then caseCmp s1 s2
    else ((asciiLower c1 : Nat) : Int) - ((asciiLower c2 : Nat) : Int)

/-- Modelled from the spec: the bounded variant, comparing at most `n`
characters of each sequence. -/
def caseNCmp : List Nat → List Nat → Nat → Int
  | _, _, 0 => 0
  | [], [], _ + 1 => 0
  | [], c2 :: _, _ + 1 => -((asciiLower c2 : Nat) : Int)
  | c1 :: _, [], _ + 1 => ((asciiLower c1 : Nat) : Int)
  | c1 :: s1, c2 :: s2, n + 1 =>
    if asciiLower c1 = asciiLower c2 then caseNCmp s1 s2 n
    else ((asciiLower c1 : Nat) : Int) - ((asciiLower c2 : Nat) : Int)

/-- Modelled from the spec: the native Windows primitive `_stricmp`, the
platform's case-insensitive whole-string comparison. -/
def stricmp (s1 s2 : List Nat) : Int := caseCmp s1 s2

/-- Modelled from the spec: the native Windows primitive `_strnicmp`, the
platform's bounded case-insensitive comparison. -/
def strnicmp (s1 s2 : List Nat) (n : Nat) : Int := caseNCmp s1 s2 n

/-- What the name `strcasecmp` means on a Windows-family target after this
header is included: line 9 of `strings.h` expands it to `_stricmp`. -/
def strcasecmp_win (s1 s2 : List Nat) : Int := stricmp s1 s2

/-- What the name `strncasecmp` means on a Windows-family target after
this header is included: line 12 of `strings.h` expands it to
`_strnicmp`. -/
def strncasecmp_win (s1 s2 : List Nat) (n : Nat) : Int := strnicmp s1 s2 n

/-- Modelled from the spec: the POSIX function `strcasecmp`, natively
available outside Windows-family targets, where the header alters
nothing. -/
def strcasecmp_posix (s1 s2 : List Nat) : Int := caseCmp s1 s2

/-- Modelled from the spec: the POSIX function `strncasecmp`, natively
available outside Windows-family targets. -/
def strncasecmp_posix (s1 s2 : List Nat) (n : Nat) : Int := caseNCmp s1 s2 n

/-- Three-way lexicographic comparison of byte lists, following the
spec's words "case-insensitive lexicographic comparison" once both sides
are lower-cased. -/
def lexCmp : List Nat → List Nat → Ordering
  | [], [] => Ordering.eq
  | [], _ :: _ => Ordering.lt
  | _ :: _, [] => Ordering.gt
  | a :: as, b :: bs =>
    if a < b then Ordering.lt else if b < a then Ordering.gt else lexCmp as bs

/-- The sign of an ordering indicator. -/
def signOf (i : Int) : Ordering :=
  if i < 0 then Ordering.lt else if 0 < i then Ordering.gt else Ordering.eq

lemma asciiLower_ne_zero {c : Nat} (h : c ≠ 0) : asciiLower c ≠ 0 := by
  unfold asciiLower; split <;> omega

lemma caseCmp_eq_lexDiff (s1 s2 : List Nat) :
    caseCmp s1 s2 = lexDiff (s1.map asciiLower) (s2.map asciiLower) := by
  induction s1 generalizing s2 with
  | nil => cases s2 <;> simp [caseCmp, lexDiff]
  | cons c1 t1 ih =>
    cases s2 with
    | nil => simp [caseCmp, lexDiff]
    | cons c2 t2 =>
      simp only [caseCmp, lexDiff, List.map_cons]
      split <;> simp [ih]

lemma caseNCmp_eq_lexDiff (s1 s2 : List Nat) (n : Nat) :
    caseNCmp s1 s2 n = lexDiff ((s1.take n).map asciiLower) ((s2.take n).map asciiLower) := by
  induction n generalizing s1 s2 with
  | zero => cases s1 <;> cases s2 <;> simp [caseNCmp, lexDiff]
  | succ m ih =>
    cases s1 with
    | nil => cases s2 <;> simp [caseNCmp, lexDiff]
    | cons c1 t1 =>
      cases s2 with
      | nil => simp [caseNCmp, lexDiff]
      | cons c2 t2 =>
        simp only [caseNCmp, List.take_succ_cons, List.map_cons, lexDiff]
        split <;> simp [ih]

lemma lexDiff_self (a : List Nat) : lexDiff a a = 0 := by
  induction a with
  | nil => rfl
  | cons c t ih => simp [lexDiff, ih]

lemma signOf_lexDiff {a b : List Nat} (ha : ∀ c ∈ a, c ≠ 0) (hb : ∀ c ∈ b, c ≠ 0) :
    signOf (lexDiff a b) = lexCmp a b := by
  induction a generalizing b with
  | nil =>
    cases b with
    | nil => simp [lexDiff, lexCmp, signOf]
    | cons c2 t2 =>
      have h2 : c2 ≠ 0 := hb c2 (by simp)
      simp only [lexDiff, lexCmp, signOf]
      rw [if_pos (by omega)]
  | cons c1 t1 ih =>
    cases b with
    | nil =>
      have h1 : c1 ≠ 0 := ha c1 (by simp)
      simp only [lexDiff, lexCmp, signOf]
      rw [if_neg (by omega), if_pos (by omega)]
    | cons c2 t2 =>
      simp only [lexDiff, lexCmp]
      rcases Nat.lt_trichotomy c1 c2 with hlt | heq | hgt
      · rw [if_neg (by omega), if_pos hlt]
        simp only [signOf]
        rw [if_pos (by omega)]
      · subst heq
        rw [if_pos rfl, if_neg (by omega), if_neg (by omega)]
        exact ih (fun c hc => ha c (List.mem_cons_of_mem _ hc))
          (fun c hc => hb c (List.mem_cons_of_mem _ hc))
      · rw [if_neg (by omega), if_neg (by omega), if_pos hgt]
        simp only [signOf]
        rw [if_neg (by omega), if_pos (by omega)]

/-- C1: two null-terminated strings that differ only in letter case (their
ASCII-lower-cased contents coincide) compare equal (result 0) under the
name `strcasecmp`, both on Windows-family targets (where the header
aliases it to `_stricmp`) and elsewhere, and likewise under
`strncasecmp` for any length bound covering both strings. -/
theorem strcasecmp_case_insensitive_eq (s1 s2 : List Nat)
    (h : s1.map asciiLower = s2.map asciiLower) :
    strcasecmp_win s1 s2 = 0 ∧ strcasecmp_posix s1 s2 = 0 ∧
    ∀ n, s1.length ≤ n → s2.length ≤ n →
      strncasecmp_win s1 s2 n = 0 ∧ strncasecmp_posix s1 s2 n = 0 := by
  have hcmp : caseCmp s1 s2 = 0 := by
    rw [caseCmp_eq_lexDiff, h, lexDiff_self]
  have hncmp : ∀ n, caseNCmp s1 s2 n = 0 := by
    intro n
    rw [caseNCmp_eq_lexDiff, List.map_take, List.map_take, h, lexDiff_self]
  exact ⟨hcmp, hcmp, fun n _ _ => ⟨hncmp n, hncmp n⟩⟩

/-- Witness for C1 at the concrete strings "HI" and "hi" (bytes
[72, 73] and [104, 105]) and length bound 5. -/
theorem strcasecmp_case_insensitive_eq_wit :
    strcasecmp_win [72, 73] [104, 105] = 0 ∧ strcasecmp_posix [72, 73] [104, 105] = 0 ∧
    strncasecmp_win [72, 73] [104, 105] 5 = 0 ∧ strncasecmp_posix [72, 73] [104, 105] 5 = 0 := by
  have h := strcasecmp_case_insensitive_eq [72, 73] [104, 105] (by decide)
  exact ⟨h.1, h.2.1, (h.2.2 5 (by decide) (by decide)).1, (h.2.2 5 (by decide) (by decide)).2⟩

/-- C2: on strings without embedded null bytes, the comparison exposed
under the names `strcasecmp` and `strncasecmp` (in both the
Windows-aliased and the native POSIX reading) returns a negative, zero,
or positive indicator whose sign is exactly the lexicographic comparison
of the ASCII-lower-cased contents — for the bounded variant, of the
first `n` characters. -/
theorem strcasecmp_sign_is_case_insensitive_lex (s1 s2 : List Nat) (n : Nat)
    (h1 : ∀ c ∈ s1, c ≠ 0) (h2 : ∀ c ∈ s2, c ≠ 0) :
    signOf (strcasecmp_win s1 s2) = lexCmp (s1.map asciiLower) (s2.map asciiLower) ∧
    signOf (strcasecmp_posix s1 s2) = lexCmp (s1.map asciiLower) (s2.map asciiLower) ∧
    signOf (strncasecmp_win s1 s2 n) =
      lexCmp ((s1.take n).map asciiLower) ((s2.take n).map asciiLower) ∧
    signOf (strncasecmp_posix s1 s2 n) =
      lexCmp ((s1.take n).map asciiLower) ((s2.take n).map asciiLower) := by
  have hm1 : ∀ c ∈ s1.map asciiLower, c ≠ 0 := by
    intro c hc
    obtain ⟨d, hd, rfl⟩ := List.mem_map.mp hc
    exact asciiLower_ne_zero (h1 d hd)
  have hm2 : ∀ c ∈ s2.map asciiLower, c ≠ 0 := by
    intro c hc
    obtain ⟨d, hd, rfl⟩ := List.mem_map.mp hc
    exact asciiLower_ne_zero (h2 d hd)
  have ht1 : ∀ c ∈ (s1.take n).map asciiLower, c ≠ 0 := by
    intro c hc
    obtain ⟨d, hd, rfl⟩ := List.mem_map.mp hc
    exact asciiLower_ne_zero (h1 d (List.mem_of_mem_take hd))
  have ht2 : ∀ c ∈ (s2.take n).map asciiLower, c ≠ 0 := by
    intro c hc
    obtain ⟨d, hd, rfl⟩ := List.mem_map.mp hc
    exact asciiLower_ne_zero (h2 d (List.mem_of_mem_take hd))
  have hc : signOf (caseCmp s1 s2) = lexCmp (s1.map asciiLower) (s2.map asciiLower) := by
    rw [caseCmp_eq_lexDiff]; exact signOf_lexDiff hm1 hm2
  have hn : signOf (caseNCmp s1 s2 n) =
      lexCmp ((s1.take n).map asciiLower) ((s2.take n).map asciiLower) := by
    rw [caseNCmp_eq_lexDiff]; exact signOf_lexDiff ht1 ht2
  exact ⟨hc, hc, hn, hn⟩

/-- Witness for C2 at the concrete strings "abc" (bytes [97, 98, 99]) and
"ABD" (bytes [65, 66, 68]) with bound 3: "abc" sorts before "abd", so
every reading returns a negative indicator. -/
theorem strcasecmp_sign_is_case_insensitive_lex_wit :
    signOf (strcasecmp_win [97, 98, 99] [65, 66, 68]) =
      lexCmp ([97, 98, 99].map asciiLower) ([65, 66, 68].map asciiLower) ∧
    signOf (strcasecmp_posix [97, 98, 99] [65, 66, 68]) =
      lexCmp ([97, 98, 99].map asciiLower) ([65, 66, 68].map asciiLower) ∧
    signOf (strncasecmp_win [97, 98, 99] [65, 66, 68] 3) =
      lexCmp (([97, 98, 99].take 3).map asciiLower) (([65, 66, 68].take 3).map asciiLower) ∧
    signOf (strncasecmp_posix [97, 98, 99] [65, 66, 68] 3) =
      lexCmp (([97, 98, 99].take 3).map asciiLower) (([65, 66, 68].take 3).map asciiLower) :=
  strcasecmp_sign_is_case_insensitive_lex [97, 98, 99] [65, 66, 68] 3 (by decide) (by decide)

/-- C3: on strings whose content differs beyond letter case, the sign of
the aliased comparison (`strcasecmp` expanded to `_stricmp`,
`strncasecmp` expanded to `_strnicmp` on Windows-family targets) equals
the sign of the platform's native case-insensitive comparison on the
same inputs — immediate because the macro expansion makes the aliased
name denote the native primitive itself. -/
theorem aliased_sign_matches_native (s1 s2 : List Nat)
    (h : s1.map asciiLower ≠ s2.map asciiLower) :
    signOf (strcasecmp_win s1 s2) = signOf (stricmp s1 s2) ∧
    ∀ n, signOf (strncasecmp_win s1 s2 n) = signOf (strnicmp s1 s2 n) :=
  ⟨rfl, fun _ => rfl⟩

/-- Witness for C3 at the concrete strings "ab" (bytes [97, 98]) and "ax"
(bytes [97, 120]), which differ beyond case, with bound 2. -/
theorem aliased_sign_matches_native_wit :
    signOf (strcasecmp_win [97, 98] [97, 120]) = signOf (stricmp [97, 98] [97, 120]) ∧
    signOf (strncasecmp_win [97, 98] [97, 120] 2) = signOf (strnicmp [97, 98] [97, 120] 2) :=
  ⟨(aliased_sign_matches_native [97, 98] [97, 120] (by decide)).1,
   (aliased_sign_matches_native [97, 98] [97, 120] (by decide)).2 2⟩

/-- C4: including the header a second time is a no-op thanks to the
`HTML_TO_MARKDOWN_RB_STRINGS_H` include guard: one inclusion never hits a
redefinition error, and processing the header again from the resulting
macro environment yields exactly that environment. -/
theorem processHeader_idempotent (env : MacroEnv) :
    ppOk (processHeader env) = true ∧
    (processHeader env).bind processHeader = processHeader env := by
  obtain ⟨g, w, d1, d2⟩ := env
  cases g <;> cases w <;> cases d1 <;> cases d2 <;>
    simp [processHeader, ppDefine, defineIfUndef, ppOk, Except.bind]

/-- C5: when `_WIN32` is undefined, the header installs no alias: the
macro definitions (or absence thereof) of `strcasecmp` and `strncasecmp`
after inclusion are exactly what they were before. -/
theorem processHeader_non_windows_frame (env env' : MacroEnv)
    (hw : env.win32 = false) (hrun : processHeader env = Except.ok env') :
    env'.strcasecmpDef = env.strcasecmpDef ∧ env'.strncasecmpDef = env.strncasecmpDef := by
  obtain ⟨g, w, d1, d2⟩ := env
  subst hw
  cases g <;> simp_all [processHeader, ppDefine] <;> subst hrun <;> simp

/-- Witness for C5: a non-Windows environment in which `strncasecmp`
already carries a macro definition and `strcasecmp` carries none; both
facts survive inclusion unchanged. -/
theorem processHeader_non_windows_frame_wit :
    (MacroEnv.mk (some "") false none (some "orig")).strcasecmpDef =
      (MacroEnv.mk none false none (some "orig")).strcasecmpDef ∧
    (MacroEnv.mk (some "") false none (some "orig")).strncasecmpDef =
      (MacroEnv.mk none false none (some "orig")).strncasecmpDef :=
  processHeader_non_windows_frame (MacroEnv.mk none false none (some "orig"))
    (MacroEnv.mk (some "") false none (some "orig")) rfl rfl

/-- C6: the comparison functions reached through the aliased names are
deterministic: equal inputs produce equal results, for the whole-string
and the bounded variants, in both the Windows-aliased and the native
POSIX reading.  (They are pure functions of their arguments in this
embedding, so evaluation touches no other state.) -/
theorem comparisons_deterministic (s1 s2 t1 t2 : List Nat) (n m : Nat)
    (h1 : s1 = t1) (h2 : s2 = t2) (h3 : n = m) :
    strcasecmp_win s1 s2 = strcasecmp_win t1 t2 ∧
    strcasecmp_posix s1 s2 = strcasecmp_posix t1 t2 ∧
    strncasecmp_win s1 s2 n = strncasecmp_win t1 t2 m ∧
    strncasecmp_posix s1 s2 n = strncasecmp_posix t1 t2 m := by
  subst h1; subst h2; subst h3
  exact ⟨rfl, rfl, rfl, rfl⟩

/-- Witness for C6 at the concrete strings "Up" (bytes [85, 112]) and
"aB" (bytes [97, 66]) with bound 1 on both sides. -/
theorem comparisons_deterministic_wit :
    strcasecmp_win [85, 112] [97, 66] = strcasecmp_win [85, 112] [97, 66] ∧
    strcasecmp_posix [85, 112] [97, 66] = strcasecmp_posix [85, 112] [97, 66] ∧
    strncasecmp_win [85, 112] [97, 66] 1 = strncasecmp_win [85, 112] [97, 66] 1 ∧
    strncasecmp_posix [85, 112] [97, 66] 1 = strncasecmp_posix [85, 112] [97, 66] 1 :=
  comparisons_deterministic [85, 112] [97, 66] [85, 112] [97, 66] 1 1 rfl rfl rfl

/-- C7: the aliasing introduces no new error conditions: on every input,
the function reached through the aliased name is defined and returns
exactly the underlying primitive's result (`strcasecmp` yields
`_stricmp`'s value, `strncasecmp` yields `_strnicmp`'s value). -/
theorem alias_no_new_failures (s1 s2 : List Nat) (n : Nat) :
    strcasecmp_win s1 s2 = stricmp s1 s2 ∧ strncasecmp_win s1 s2 n = strnicmp s1 s2 n :=
  ⟨rfl, rfl⟩

/-- C8: the bounded variant honours its length limit: the result of
`strncasecmp` with count `n` depends only on the (case-folded) first `n`
characters of each input, so inputs agreeing case-insensitively on those
prefixes give the same indicator regardless of later content. -/
theorem strncasecmp_prefix_dependent (s1 s2 t1 t2 : List Nat) (n : Nat)
    (h1 : (s1.take n).map asciiLower = (t1.take n).map asciiLower)
    (h2 : (s2.take n).map asciiLower = (t2.take n).map asciiLower) :
    strncasecmp_win s1 s2 n = strncasecmp_win t1 t2 n ∧
    strncasecmp_posix s1 s2 n = strncasecmp_posix t1 t2 n := by
  have h : caseNCmp s1 s2 n = caseNCmp t1 t2 n := by
    rw [caseNCmp_eq_lexDiff, caseNCmp_eq_lexDiff, h1, h2]
  exact ⟨h, h⟩

/-- Witness for C8 with count 2: "abc" vs "ABx" (bytes [97, 98, 99] and
[65, 66, 120]) agree case-insensitively on their first two characters
though they differ at the third, and likewise "xy" vs "XY"; the bounded
comparisons coincide. -/
theorem strncasecmp_prefix_dependent_wit :
    strncasecmp_win [97, 98, 99] [120, 121] 2 = strncasecmp_win [65, 66, 120] [88, 89] 2 ∧
    strncasecmp_posix [97, 98, 99] [120, 121] 2 = strncasecmp_posix [65, 66, 120] [88, 89] 2 :=
  strncasecmp_prefix_dependent [97, 98, 99] [120, 121] [65, 66, 120] [88, 89] 2
    (by decide) (by decide)

/-- C9: even on a Windows-family target the header never overrides an
existing macro definition of `strcasecmp` or `strncasecmp`: each alias
sits behind an `#ifndef`, so a name already defined before inclusion
keeps its definition afterwards. -/
theorem processHeader_no_override (env env' : MacroEnv)
    (hrun : processHeader env = Except.ok env') :
    (env.strcasecmpDef.isSome = true → env'.strcasecmpDef = env.strcasecmpDef) ∧
    (env.strncasecmpDef.isSome = true → env'.strncasecmpDef = env.strncasecmpDef) := by
  obtain ⟨g, w, d1, d2⟩ := env
  cases g <;> cases w <;> cases d1 <;> cases d2 <;>
    simp_all [processHeader, ppDefine, defineIfUndef] <;> subst hrun <;> simp

/-- Witness for C9: a Windows environment in which both names already
carry macro definitions; after inclusion both definitions are intact. -/
theorem processHeader_no_override_wit :
    (MacroEnv.mk (some "") true (some "orig1") (some "orig2")).strcasecmpDef = some "orig1" ∧
    (MacroEnv.mk (some "") true (some "orig1") (some "orig2")).strncasecmpDef = some "orig2" := by
  have h := processHeader_no_override (MacroEnv.mk none true (some "orig1") (some "orig2"))
    (MacroEnv.mk (some "") true (some "orig1") (some "orig2")) rfl
  exact ⟨h.1 rfl, h.2 rfl⟩

/-- C10: the bounded comparison with a maximum count of zero compares no
characters and returns 0, for the Windows-aliased name, the native POSIX
function, and the underlying primitive alike. -/
theorem strncasecmp_zero_count (s1 s2 : List Nat) :
    strncasecmp_win s1 s2 0 = 0 ∧ strncasecmp_posix s1 s2 0 = 0 ∧ strnicmp s1 s2 0 = 0 := by
  refine ⟨?_, ?_, ?_⟩ <;> simp [strncasecmp_win, strncasecmp_posix, strnicmp, caseNCmp]

end HtmlToMarkdownRb
